import Mathlib

/-!
Verification of the branch-classification and safe-deletion workflow of the
git-clean repository (src/git-clean.js and src/git-cleanup.js), via a shallow
embedding: strings are lists of characters, the JavaScript string operations
the scripts use are modelled character by character, and the effectful main
flow is modelled as a pure function from an environment (the outcomes of the
external git commands and the answers the user gives to the prompts) to a
trace of events plus a process exit code.
-/

namespace GitClean

/-- Strings are modelled as lists of characters. -/
abbrev Str := List Char

/-- The ASCII whitespace characters removed by JavaScript
String.prototype.trim.  (The Unicode-only space characters cannot occur in
the fixed-format ASCII output of the git commands this tool parses, so they
are omitted from the model.) -/
def jsWhitespace (c : Char) : Bool :=
  c == ' ' || c == '\t' || c == '\n' || c == '\x0b' || c == '\x0c' || c == '\r'

/-- JavaScript String.prototype.trim: remove whitespace from both ends. -/
def trim (s : Str) : Str :=
  ((s.dropWhile jsWhitespace).reverse.dropWhile jsWhitespace).reverse

/-- JavaScript String.prototype.split with a single-character separator:
the empty string splits to [""], and separators at either end produce empty
fragments.  The result is always non-empty. -/
def splitOnChar (sep : Char) : Str → List Str
  | [] => [[]]
  | c :: cs =>
    let rest := splitOnChar sep cs
    if c = sep then [] :: rest
    else (c :: rest.headD []) :: rest.tail

/-- leadsWith pat s decides whether pat occurs at the very start of s. -/
def leadsWith : Str → Str → Bool
  | [], _ => true
  | _ :: _, [] => false
  | p :: ps, c :: cs => p == c && leadsWith ps cs

/-- JavaScript String.prototype.includes: hasSubstr pat s decides whether pat
occurs as a contiguous substring of s. -/
def hasSubstr (pat : Str) : Str → Bool
  | [] => leadsWith pat []
  | c :: cs => leadsWith pat (c :: cs) || hasSubstr pat cs

/-- JavaScript Array.prototype.includes on an array of strings. -/
def strListHas : List Str → Str → Bool
  | [], _ => false
  | t :: ts, s => s == t || strListHas ts s

/-- The literal marker ": gone]" tested by both classifiers
(src/git-clean.js line 43, src/git-cleanup.js line 80). -/
def goneMarker : Str := (": gone]").toList

/-- The literal error-text marker "not fully merged" tested by both deletion
loops (src/git-clean.js line 80, src/git-cleanup.js line 119). -/
def notFullyMergedMarker : Str := ("not fully merged").toList

/-- The fixed protected-branch list of src/git-clean.js (line 39). -/
def defaultProtectedClean : List Str :=
  (["main", "master", "develop", "dev"]).map String.toList

/-- The built-in default protected-branch list of src/git-cleanup.js
(line 23). -/
def defaultProtectedCleanup : List Str :=
  (["main", "master", "develop", "dev", "prod", "production"]).map String.toList

/-- The per-line branch-name extraction shared by both classifiers: trim the
line, split it on the space character, take the first element
(src/git-clean.js line 44, src/git-cleanup.js line 81). -/
def branchTok (line : Str) : Str := (splitOnChar ' ' (trim line)).headD []

/-- The Branch Classifier shared by both implementations
(src/git-clean.js lines 41-45, src/git-cleanup.js lines 78-82):
split the status output into lines, keep the lines containing the literal
": gone]" marker, take the first space-delimited token of each trimmed line,
and drop tokens belonging to the protected list.  src/git-clean.js always
passes defaultProtectedClean; src/git-cleanup.js passes the resolved
configuration (getProtectedBranches). -/
def goneBranches (branchesOutput : Str) (protectedBranches : List Str) : List Str :=
  (((splitOnChar '\n' branchesOutput).filter
      (fun line => hasSubstr goneMarker line)).map branchTok).filter
    (fun branch => !strListHas protectedBranches branch)

/-! ### The classifier described by the specification's words (for claim C1)

The spec says the branch name is "the first whitespace-delimited token" of a
kept line; the code takes the first SPACE-delimited token of the trimmed
line.  Both readings are written out below so they can be compared. -/

/-- The first whitespace-delimited token of a line: skip leading whitespace,
then take characters up to the next whitespace.  Built from the claim's
words, not from the code. -/
def firstWhitespaceToken (line : Str) : Str :=
  (line.dropWhile jsWhitespace).takeWhile (fun c => !jsWhitespace c)

/-- The classifier exactly as claim C1 words it: split into lines, keep the
lines containing ": gone]", extract the first whitespace-delimited token,
remove protected names. -/
def classifierSpec (text : Str) (protectedBranches : List Str) : List Str :=
  (((splitOnChar '\n' text).filter
      (fun line => hasSubstr goneMarker line)).map firstWhitespaceToken).filter
    (fun branch => !strListHas protectedBranches branch)

/-- The first space-delimited token of the whitespace-trimmed line.  This is
the amended wording of claim C1. -/
def firstSpaceToken (line : Str) : Str :=
  (trim line).takeWhile (fun c => c != ' ')

/-- The classifier as claim C1 reads after amendment: identical to
classifierSpec except that the token is the first space-delimited token of
the trimmed line. -/
def classifierSpecAmended (text : Str) (protectedBranches : List Str) : List Str :=
  (((splitOnChar '\n' text).filter
      (fun line => hasSubstr goneMarker line)).map firstSpaceToken).filter
    (fun branch => !strListHas protectedBranches branch)

/-! ### Configuration resolution (src/git-cleanup.js, getProtectedBranches)

The file system and JSON.parse are external collaborators; the data that
crosses that boundary is modelled by ConfigState.  JavaScript truthiness is
folded into the CfgField constructors: a falsy or undefined protectedBranches
field and a truthy non-array field both fail the truthy-and-is-array test on
line 29 without throwing. -/

/-- The protectedBranches field of the parsed configuration object. -/
inductive CfgField where
  /-- The field is absent, undefined, or holds a falsy value. -/
  | missing : CfgField
  /-- The field holds a truthy value that is not an array. -/
  | nonArrayTruthy : CfgField
  /-- The field holds an array of branch-name strings. -/
  | arrayVal (xs : List Str) : CfgField
  deriving DecidableEq

/-- The observable outcome of looking for .git-cleanup-config.json. -/
inductive ConfigState where
  /-- fs.existsSync returns false. -/
  | absent : ConfigState
  /-- fs.readFileSync throws. -/
  | readError : ConfigState
  /-- JSON.parse throws on the file contents. -/
  | parseError : ConfigState
  /-- JSON.parse returns null, so the property access on line 29 throws a
  TypeError, which the same catch block turns into the default list. -/
  | nullValue : ConfigState
  /-- JSON.parse returns a value whose protectedBranches field reads as
  given (a non-object primitive simply yields an undefined field). -/
  | parsedObj (field : CfgField) : ConfigState
  deriving DecidableEq

/-- src/git-cleanup.js lines 21-41: resolve the Protected Branch Set from
the optional configuration file, falling back to the built-in defaults.
The second component records whether the catch block ran, i.e. whether the
fallback warning of lines 37-38 was logged. -/
def getProtectedBranches : ConfigState → List Str × Bool
  | .absent => (defaultProtectedCleanup, false)
  | .readError => (defaultProtectedCleanup, true)
  | .parseError => (defaultProtectedCleanup, true)
  | .nullValue => (defaultProtectedCleanup, true)
  | .parsedObj (.arrayVal xs) => (xs, false)
  | .parsedObj _ => (defaultProtectedCleanup, false)

/-- The resolution claim C8 describes, built from the claim's words: the
array-valued field whenever the file exists and is structurally valid, the
built-in default list in every other case. -/
def protectedBranchesSpec : ConfigState → List Str
  | .parsedObj (.arrayVal xs) => xs
  | _ => defaultProtectedCleanup

/-- The states claim C8 calls read or parse errors, which must warn and fall
back rather than abort. -/
def isConfigError : ConfigState → Bool
  | .readError => true
  | .parseError => true
  | .nullValue => true
  | _ => false

/-! ### The main flow as a trace semantics

Events record, in program order, every external git invocation, every
interactive prompt, and the log lines that distinguish the outcome paths of
src/git-cleanup.js main (lines 46-166).  src/git-clean.js main (lines
16-116) is the same flow with isDryRun fixed to false, the protected list
fixed to defaultProtectedClean, and no configuration file. -/

inductive Ev where
  /-- git rev-parse --is-inside-work-tree (line 56). -/
  | revParse : Ev
  /-- The not-a-repository error message (line 58). -/
  | logNotRepo : Ev
  /-- git fetch -p (line 65). -/
  | fetch : Ev
  /-- The fetch-failure error message (line 67). -/
  | logFetchFailed : Ev
  /-- git branch -vv (line 75). -/
  | branchVV : Ev
  /-- The nothing-to-do success message (line 85). -/
  | logNothingToDo : Ev
  /-- The interactive checkbox prompt offering the Candidate List
  (lines 90-100). -/
  | selectPrompt (choices : List Str) : Ev
  /-- The cancellation message for an empty Selection (line 103). -/
  | logCancelled : Ev
  /-- The dry-run banner (line 51). -/
  | logDryRunBanner : Ev
  /-- git branch -d branch, the non-forcing delete (line 115). -/
  | deleteSoft (branch : Str) : Ev
  /-- The per-branch delete success message (line 116). -/
  | logDeleted (branch : Str) : Ev
  /-- The dry-run simulation message replacing the non-forcing delete
  (line 113). -/
  | logWouldDelete (branch : Str) : Ev
  /-- The unmerged-changes warning (line 120). -/
  | logUnmergedWarn (branch : Str) : Ev
  /-- The yes/no force-delete confirmation prompt (lines 122-129). -/
  | confirmPrompt (branch : Str) : Ev
  /-- git branch -D branch, the forcing delete (line 136). -/
  | deleteForce (branch : Str) : Ev
  /-- The force-delete success message (line 137). -/
  | logForceDeleted (branch : Str) : Ev
  /-- The dry-run simulation message replacing the forcing delete
  (line 134; unreachable, since in dry-run mode the non-forcing delete is
  never attempted and so never throws). -/
  | logWouldForceDelete (branch : Str) : Ev
  /-- The force-delete failure message (line 140). -/
  | logForceFailed (branch : Str) : Ev
  /-- The skipped-branch message after a declined confirmation (line 146). -/
  | logSkipped (branch : Str) : Ev
  /-- The unrelated-delete-failure message (line 149). -/
  | logDeleteFailed (branch : Str) : Ev
  /-- The final completion banner (line 157). -/
  | logComplete : Ev
  /-- The unexpected-error message of the final catch handler (line 163).
  It is never emitted: the handler starts a dynamic import of the colour
  library and calls process.exit(1) synchronously right after (line 165),
  so the process terminates before the then-callback holding the
  console.error can run. -/
  | logUnexpected : Ev
  deriving DecidableEq

/-- The environment of one run: what the external git commands and the user
would answer.  deleteResult gives none when git branch -d succeeds and the
thrown error's message text otherwise; forceAnswer is the confirmation
answer; forceDeleteOk tells whether git branch -D succeeds. -/
structure Env where
  inRepo : Bool
  fetchOk : Bool
  branchVVOk : Bool
  branchesOutput : Str
  protectedBranches : List Str
  selection : List Str
  deleteResult : Str → Option Str
  forceAnswer : Str → Bool
  forceDeleteOk : Str → Bool

/-- Whether the non-forcing delete of this branch fails with an error text
containing "not fully merged" (the condition of line 119). -/
def wouldForcePrompt (env : Env) (branch : Str) : Bool :=
  match env.deleteResult branch with
  | none => false
  | some msg => hasSubstr notFullyMergedMarker msg

/-- One iteration of the deletion loop (src/git-cleanup.js lines 110-155;
src/git-clean.js lines 72-108 is the same with isDryRun false).  The inner
dry-run test mirrors line 133 even though it is unreachable: when isDryRun
holds the outer branch logs instead of deleting, so the catch never runs. -/
def processBranch (env : Env) (isDryRun : Bool) (branch : Str) : List Ev :=
  if isDryRun then
    [Ev.logWouldDelete branch]
  else
    match env.deleteResult branch with
    | none => [Ev.deleteSoft branch, Ev.logDeleted branch]
    | some msg =>
      Ev.deleteSoft branch ::
        if hasSubstr notFullyMergedMarker msg then
          Ev.logUnmergedWarn branch :: Ev.confirmPrompt branch ::
            (if env.forceAnswer branch then
              (if isDryRun then [Ev.logWouldForceDelete branch]
                else if env.forceDeleteOk branch then
                  [Ev.deleteForce branch, Ev.logForceDeleted branch]
                else [Ev.deleteForce branch, Ev.logForceFailed branch])
              else [Ev.logSkipped branch])
        else [Ev.logDeleteFailed branch]

/-- The whole of main (src/git-cleanup.js lines 46-158) together with the
process exit code: 0 on every completed run and on the two process.exit(0)
paths, 1 on the three aborting paths.  The branchVVOk-false path models
git branch -vv (line 75, outside every try block) throwing: the exception
reaches the final catch (lines 160-166), which exits 1 WITHOUT any script
diagnostic, because process.exit(1) runs before the dynamically imported
module's then-callback containing the console.error. -/
def mainRun (env : Env) (isDryRun : Bool) : List Ev × Nat :=
  let banner : List Ev := if isDryRun then [Ev.logDryRunBanner] else []
  if env.inRepo = false then
    (banner ++ [Ev.revParse, Ev.logNotRepo], 1)
  else if env.fetchOk = false then
    (banner ++ [Ev.revParse, Ev.fetch, Ev.logFetchFailed], 1)
  else if env.branchVVOk = false then
    (banner ++ [Ev.revParse, Ev.fetch, Ev.branchVV], 1)
  else
    let gone := goneBranches env.branchesOutput env.protectedBranches
    if gone = [] then
      (banner ++ [Ev.revParse, Ev.fetch, Ev.branchVV, Ev.logNothingToDo], 0)
    else if env.selection = [] then
      (banner ++ [Ev.revParse, Ev.fetch, Ev.branchVV, Ev.selectPrompt gone, Ev.logCancelled], 0)
    else
      (banner ++ [Ev.revParse, Ev.fetch, Ev.branchVV, Ev.selectPrompt gone] ++
        (env.selection.map (processBranch env isDryRun)).flatten ++ [Ev.logComplete], 0)

/-- Occurrence count of an event in a trace. -/
def countEv (e : Ev) : List Ev → Nat
  | [] => 0
  | x :: xs => (if x = e then 1 else 0) + countEv e xs

/-- The branch an event is about, if any. -/
def evBranch : Ev → Option Str
  | .deleteSoft b => some b
  | .logDeleted b => some b
  | .logWouldDelete b => some b
  | .logUnmergedWarn b => some b
  | .confirmPrompt b => some b
  | .deleteForce b => some b
  | .logForceDeleted b => some b
  | .logWouldForceDelete b => some b
  | .logForceFailed b => some b
  | .logSkipped b => some b
  | .logDeleteFailed b => some b
  | _ => none

/-- The start-of-processing marker of a branch: the first event of every
iteration of the deletion loop is the non-forcing delete in normal mode and
the simulation message in dry-run mode. -/
def attemptOf : Ev → Option Str
  | .deleteSoft b => some b
  | .logWouldDelete b => some b
  | _ => none

/-- The events of the Repository Guard, Remote Sync, Branch Classifier and
Selection Prompt steps, shared by normal and dry-run mode. -/
def isPreludeEv : Ev → Bool
  | .revParse => true
  | .fetch => true
  | .branchVV => true
  | .selectPrompt _ => true
  | _ => false

/-- The diagnostic messages of the three aborting paths. -/
def isDiagnosticEv : Ev → Bool
  | .logNotRepo => true
  | .logFetchFailed => true
  | .logUnexpected => true
  | _ => false

/-- Whether a run with this trace actually removed the branch: the only
mutating operations are a non-forcing delete that git accepted and a forcing
delete that git accepted. -/
def branchDeletedIn (env : Env) (tr : List Ev) (branch : Str) : Bool :=
  (decide (Ev.deleteSoft branch ∈ tr) && (env.deleteResult branch).isNone) ||
    (decide (Ev.deleteForce branch ∈ tr) && env.forceDeleteOk branch)

/-- The branch listing a subsequent run would see, given the branches that
existed before this run. -/
def listingAfter (env : Env) (tr : List Ev) (initial : List Str) : List Str :=
  initial.filter (fun branch => !branchDeletedIn env tr branch)

/-! ### Concrete inputs used by counterexamples and witnesses -/

/-- The status text witnessing the divergence for claim C1: a gone-marked
line whose first token is separated from the rest by a tab. -/
def tabLineText : Str := ("a\tb [: gone]").toList

/-- A concrete current-branch status line for the C9 witness. -/
def starDemoLine : Str := ("* feature-x abc [origin/feature-x: gone] msg").toList

/-- The branch name "prod". -/
def prodStr : Str := ("prod").toList

/-- The branch name "production". -/
def productionStr : Str := ("production").toList

/-- A status text with no gone-marked prod or production line. -/
def noProdText : Str := ("feature-x abc [origin/feature-x: gone] msg").toList

/-- A status text whose gone-marked line has first token "prod". -/
def prodText : Str := ("prod abc [origin/prod: gone] msg").toList

/-- The branch name "feature-x". -/
def fxStr : Str := ("feature-x").toList

/-- The branch name "feature-y". -/
def fyStr : Str := ("feature-y").toList

/-- A status output with two gone branches, feature-x and feature-y. -/
def demoStatusText : Str :=
  ("feature-x abc1234 [origin/feature-x: gone] msg\nfeature-y def5678 [origin/feature-y: gone] msg").toList

/-- A delete error text containing the unmerged marker. -/
def unmergedMsg : Str := ("error: The branch feature-y is not fully merged.").toList

/-- A delete error text not containing the unmerged marker. -/
def otherFailMsg : Str := ("error: branch not found.").toList

/-- A run in which git accepts every delete and the user selected both
branches. -/
def envAllOk : Env :=
  Env.mk true true true demoStatusText defaultProtectedCleanup [fxStr, fyStr]
    (fun _ => none) (fun _ => false) (fun _ => true)

/-- A run in which deleting feature-y fails with the unmerged error and the
user declines the force-delete confirmation. -/
def envDecline : Env :=
  Env.mk true true true demoStatusText defaultProtectedCleanup [fxStr, fyStr]
    (fun branch => if branch = fyStr then some unmergedMsg else none)
    (fun _ => false) (fun _ => true)

/-- A run in which every delete fails — feature-x with an unrelated error,
feature-y with the unmerged error followed by a confirmed but failing force
delete. -/
def envMixedFail : Env :=
  Env.mk true true true demoStatusText defaultProtectedCleanup [fxStr, fyStr]
    (fun branch => if branch = fxStr then some otherFailMsg else some unmergedMsg)
    (fun _ => true) (fun _ => false)

/-- A run whose only gone branch is protected, so the Candidate List is
empty. -/
def envNothingToDo : Env :=
  Env.mk true true true (("main abc1234 [origin/main: gone] msg").toList)
    defaultProtectedCleanup []
    (fun _ => none) (fun _ => false) (fun _ => true)

/-- A run in which git branch -vv throws, the one uncaught-exception source
in the model. -/
def envNoListing : Env :=
  Env.mk true true false [] [] []
    (fun _ => none) (fun _ => false) (fun _ => true)

/-! ### Basic lemmas about the string model -/

lemma headD_splitOnChar (sep : Char) (s : Str) :
    (splitOnChar sep s).headD [] = s.takeWhile (fun c => c != sep) := by
  induction s with
  | nil => rfl
  | cons c cs ih =>
    by_cases hc : c = sep
    · subst hc
      simp [splitOnChar]
    · simpa [splitOnChar, hc] using ih

lemma branchTok_eq_firstSpaceToken (line : Str) :
    branchTok line = firstSpaceToken line :=
  headD_splitOnChar ' ' (trim line)

lemma strListHas_iff (l : List Str) (s : Str) :
    strListHas l s = true ↔ s ∈ l := by
  induction l with
  | nil => simp [strListHas]
  | cons t ts ih => simp [strListHas, ih]

lemma strListHas_append (a b : List Str) (s : Str) :
    strListHas (a ++ b) s = (strListHas a s || strListHas b s) := by
  induction a with
  | nil => simp [strListHas]
  | cons t ts ih => simp [strListHas, ih, Bool.or_assoc]

lemma filter_ext_mem {α : Type} {p q : α → Bool} (l : List α)
    (h : ∀ x ∈ l, p x = q x) : l.filter p = l.filter q := by
  induction l with
  | nil => rfl
  | cons a as ih =>
    have ha := h a (List.mem_cons_self a as)
    have ihh := ih (fun x hx => h x (List.mem_cons_of_mem a hx))
    simp [List.filter, ha, ihh]

lemma cleanup_as_append :
    defaultProtectedCleanup = defaultProtectedClean ++ [prodStr, productionStr] := by
  decide

/-! ### Lemmas about the deletion loop -/

lemma processBranch_dry (env : Env) (b : Str) :
    processBranch env true b = [Ev.logWouldDelete b] := rfl

lemma processBranch_ok (env : Env) (b : Str) (h : env.deleteResult b = none) :
    processBranch env false b = [Ev.deleteSoft b, Ev.logDeleted b] := by
  simp [processBranch, h]

lemma processBranch_otherFail (env : Env) (b msg : Str)
    (h : env.deleteResult b = some msg)
    (hm : hasSubstr notFullyMergedMarker msg = false) :
    processBranch env false b = [Ev.deleteSoft b, Ev.logDeleteFailed b] := by
  simp [processBranch, h, hm]

lemma processBranch_decline (env : Env) (b msg : Str)
    (h : env.deleteResult b = some msg)
    (hm : hasSubstr notFullyMergedMarker msg = true)
    (ha : env.forceAnswer b = false) :
    processBranch env false b =
      [Ev.deleteSoft b, Ev.logUnmergedWarn b, Ev.confirmPrompt b, Ev.logSkipped b] := by
  simp [processBranch, h, hm, ha]

lemma processBranch_forceOk (env : Env) (b msg : Str)
    (h : env.deleteResult b = some msg)
    (hm : hasSubstr notFullyMergedMarker msg = true)
    (ha : env.forceAnswer b = true)
    (hk : env.forceDeleteOk b = true) :
    processBranch env false b =
      [Ev.deleteSoft b, Ev.logUnmergedWarn b, Ev.confirmPrompt b,
        Ev.deleteForce b, Ev.logForceDeleted b] := by
  simp [processBranch, h, hm, ha, hk]

lemma processBranch_forceFail (env : Env) (b msg : Str)
    (h : env.deleteResult b = some msg)
    (hm : hasSubstr notFullyMergedMarker msg = true)
    (ha : env.forceAnswer b = true)
    (hk : env.forceDeleteOk b = false) :
    processBranch env false b =
      [Ev.deleteSoft b, Ev.logUnmergedWarn b, Ev.confirmPrompt b,
        Ev.deleteForce b, Ev.logForceFailed b] := by
  simp [processBranch, h, hm, ha, hk]

/-- Every event of a loop iteration carries the branch of that iteration. -/
lemma evBranch_processBranch (env : Env) (d : Bool) (bp : Str) :
    ∀ e ∈ processBranch env d bp, evBranch e = some bp := by
  intro e he
  cases d
  · cases h : env.deleteResult bp with
    | none =>
      rw [processBranch_ok env bp h] at he
      simp only [List.mem_cons, List.not_mem_nil, or_false] at he
      rcases he with rfl | rfl <;> rfl
    | some msg =>
      cases hm : hasSubstr notFullyMergedMarker msg
      · rw [processBranch_otherFail env bp msg h hm] at he
        simp only [List.mem_cons, List.not_mem_nil, or_false] at he
        rcases he with rfl | rfl <;> rfl
      · cases ha : env.forceAnswer bp
        · rw [processBranch_decline env bp msg h hm ha] at he
          simp only [List.mem_cons, List.not_mem_nil, or_false] at he
          rcases he with rfl | rfl | rfl | rfl <;> rfl
        · cases hk : env.forceDeleteOk bp
          · rw [processBranch_forceFail env bp msg h hm ha hk] at he
            simp only [List.mem_cons, List.not_mem_nil, or_false] at he
            rcases he with rfl | rfl | rfl | rfl | rfl <;> rfl
          · rw [processBranch_forceOk env bp msg h hm ha hk] at he
            simp only [List.mem_cons, List.not_mem_nil, or_false] at he
            rcases he with rfl | rfl | rfl | rfl | rfl <;> rfl
  · rw [processBranch_dry env bp] at he
    simp only [List.mem_cons, List.not_mem_nil, or_false] at he
    subst he
    rfl

/-! ### Counting lemmas -/

lemma countEv_append (e : Ev) (a b : List Ev) :
    countEv e (a ++ b) = countEv e a + countEv e b := by
  induction a with
  | nil => simp [countEv]
  | cons x xs ih => simp [countEv, ih, Nat.add_assoc]

lemma countEv_not_mem (e : Ev) (l : List Ev) (h : e ∉ l) : countEv e l = 0 := by
  induction l with
  | nil => rfl
  | cons x xs ih =>
    have hx : ¬x = e := fun hh => h (hh ▸ List.mem_cons_self x xs)
    have hxs := ih (fun hh => h (List.mem_cons_of_mem x hh))
    simp [countEv, hx, hxs]

lemma countEv_flatten_zero (e : Ev) (L : List (List Ev))
    (h : ∀ l ∈ L, countEv e l = 0) : countEv e L.flatten = 0 := by
  induction L with
  | nil => rfl
  | cons l ls ih =>
    have h1 := h l (List.mem_cons_self l ls)
    have h2 := ih (fun x hx => h x (List.mem_cons_of_mem l hx))
    simp [List.flatten_cons, countEv_append, h1, h2]

/-- Counting over the whole loop reduces to the one iteration of the chosen
branch when every other iteration contributes nothing. -/
lemma countEv_flatten_map (e : Ev) (f : Str → List Ev) (sel : List Str) (b : Str)
    (h0 : ∀ bp, bp ≠ b → countEv e (f bp) = 0)
    (hnd : sel.Nodup) (hb : b ∈ sel) :
    countEv e ((sel.map f).flatten) = countEv e (f b) := by
  induction sel with
  | nil => cases hb
  | cons a as ih =>
    by_cases heq : a = b
    · subst heq
      have hrest : countEv e ((as.map f).flatten) = 0 := by
        apply countEv_flatten_zero
        intro l hl
        obtain ⟨bp, hbp, rfl⟩ := List.mem_map.mp hl
        have hbpa : bp ≠ a := fun hh => (List.nodup_cons.mp hnd).1 (hh ▸ hbp)
        exact h0 bp hbpa
      simp [List.flatten_cons, countEv_append, hrest]
    · have hb2 : b ∈ as := by
        rcases List.mem_cons.mp hb with h1 | h1
        · exact absurd h1.symm heq
        · exact h1
      have hstep := ih (List.nodup_cons.mp hnd).2 hb2
      simp [List.flatten_cons, countEv_append, h0 a heq, hstep]

lemma countEv_branch_other (env : Env) (d : Bool) (e : Ev) (b bp : Str)
    (heb : evBranch e = some b) (hne : bp ≠ b) :
    countEv e (processBranch env d bp) = 0 := by
  apply countEv_not_mem
  intro hmem
  have := evBranch_processBranch env d bp e hmem
  rw [heb] at this
  exact hne (Option.some.inj this).symm

lemma countEv_confirm_self (env : Env) (b : Str) :
    countEv (Ev.confirmPrompt b) (processBranch env false b) =
      if wouldForcePrompt env b = true then 1 else 0 := by
  cases h : env.deleteResult b with
  | none => simp [processBranch_ok env b h, countEv, wouldForcePrompt, h]
  | some msg =>
    cases hm : hasSubstr notFullyMergedMarker msg
    · simp [processBranch_otherFail env b msg h hm, countEv, wouldForcePrompt, h, hm]
    · cases ha : env.forceAnswer b
      · simp [processBranch_decline env b msg h hm ha, countEv, wouldForcePrompt, h, hm]
      · cases hk : env.forceDeleteOk b
        · simp [processBranch_forceFail env b msg h hm ha hk, countEv, wouldForcePrompt, h, hm]
        · simp [processBranch_forceOk env b msg h hm ha hk, countEv, wouldForcePrompt, h, hm]

lemma countEv_soft_self (env : Env) (b : Str) :
    countEv (Ev.deleteSoft b) (processBranch env false b) = 1 := by
  cases h : env.deleteResult b with
  | none => simp [processBranch_ok env b h, countEv]
  | some msg =>
    cases hm : hasSubstr notFullyMergedMarker msg
    · simp [processBranch_otherFail env b msg h hm, countEv]
    · cases ha : env.forceAnswer b
      · simp [processBranch_decline env b msg h hm ha, countEv]
      · cases hk : env.forceDeleteOk b
        · simp [processBranch_forceFail env b msg h hm ha hk, countEv]
        · simp [processBranch_forceOk env b msg h hm ha hk, countEv]

/-! ### Per-iteration facts used across the claims -/

lemma attemptOf_processBranch (env : Env) (d : Bool) (bp : Str) :
    (processBranch env d bp).filterMap attemptOf = [bp] := by
  cases d
  · cases h : env.deleteResult bp with
    | none => simp [processBranch_ok env bp h, attemptOf]
    | some msg =>
      cases hm : hasSubstr notFullyMergedMarker msg
      · simp [processBranch_otherFail env bp msg h hm, attemptOf]
      · cases ha : env.forceAnswer bp
        · simp [processBranch_decline env bp msg h hm ha, attemptOf]
        · cases hk : env.forceDeleteOk bp
          · simp [processBranch_forceFail env bp msg h hm ha hk, attemptOf]
          · simp [processBranch_forceOk env bp msg h hm ha hk, attemptOf]
  · simp [processBranch_dry, attemptOf]

lemma filterMap_attempt_flatten (env : Env) (d : Bool) (sel : List Str) :
    ((sel.map (processBranch env d)).flatten).filterMap attemptOf = sel := by
  induction sel with
  | nil => rfl
  | cons a as ih =>
    simp [List.flatten_cons, List.filterMap_append, attemptOf_processBranch, ih]

lemma filter_prelude_processBranch (env : Env) (d : Bool) (bp : Str) :
    (processBranch env d bp).filter isPreludeEv = [] := by
  cases d
  · cases h : env.deleteResult bp with
    | none => simp [processBranch_ok env bp h, isPreludeEv]
    | some msg =>
      cases hm : hasSubstr notFullyMergedMarker msg
      · simp [processBranch_otherFail env bp msg h hm, isPreludeEv]
      · cases ha : env.forceAnswer bp
        · simp [processBranch_decline env bp msg h hm ha, isPreludeEv]
        · cases hk : env.forceDeleteOk bp
          · simp [processBranch_forceFail env bp msg h hm ha hk, isPreludeEv]
          · simp [processBranch_forceOk env bp msg h hm ha hk, isPreludeEv]
  · simp [processBranch_dry, isPreludeEv]

lemma filter_prelude_flatten (env : Env) (d : Bool) (sel : List Str) :
    ((sel.map (processBranch env d)).flatten).filter isPreludeEv = [] := by
  induction sel with
  | nil => rfl
  | cons a as ih =>
    simp [List.flatten_cons, List.filter_append, filter_prelude_processBranch, ih]

/-- The shape of a run that reaches the deletion loop. -/
lemma mainRun_full (env : Env) (d : Bool)
    (hr : env.inRepo = true) (hf : env.fetchOk = true) (hv : env.branchVVOk = true)
    (hg : goneBranches env.branchesOutput env.protectedBranches ≠ [])
    (hs : env.selection ≠ []) :
    mainRun env d =
      ((if d then [Ev.logDryRunBanner] else []) ++
        [Ev.revParse, Ev.fetch, Ev.branchVV,
          Ev.selectPrompt (goneBranches env.branchesOutput env.protectedBranches)] ++
        (env.selection.map (processBranch env d)).flatten ++ [Ev.logComplete], 0) := by
  simp [mainRun, hr, hf, hv, hg, hs]

lemma map_filter_prelude (env : Env) (d : Bool) (sel : List Str) :
    sel.map (List.filter isPreludeEv ∘ processBranch env d) =
      sel.map (fun _ => ([] : List Ev)) := by
  induction sel with
  | nil => rfl
  | cons a as ih => simp [Function.comp, filter_prelude_processBranch, ih]

lemma flatten_map_nil {α β : Type} (l : List α) :
    (l.map (fun _ => ([] : List β))).flatten = [] := by
  induction l <;> simp [*]

lemma map_filterMap_attempt (env : Env) (d : Bool) (sel : List Str) :
    sel.map (List.filterMap attemptOf ∘ processBranch env d) = sel.map (fun bp => [bp]) := by
  induction sel with
  | nil => rfl
  | cons a as ih => simp [Function.comp, attemptOf_processBranch, ih]

lemma flatten_map_singleton {α : Type} (l : List α) :
    (l.map (fun x => [x])).flatten = l := by
  induction l <;> simp [*]

/-! ### Further counting lemmas for the loop -/

lemma not_mem_of_countEv_zero (e : Ev) (l : List Ev) (h : countEv e l = 0) : e ∉ l := by
  intro hmem
  induction l with
  | nil => cases hmem
  | cons x xs ih =>
    simp only [countEv] at h
    rcases List.mem_cons.mp hmem with rfl | h1
    · simp at h
    · exact ih (by omega) h1

lemma countEv_force_processBranch_zero (env : Env) (b bp : Str)
    (hans : env.forceAnswer b = false) :
    countEv (Ev.deleteForce b) (processBranch env false bp) = 0 := by
  by_cases heq : bp = b
  · subst heq
    cases h : env.deleteResult bp with
    | none => simp [processBranch_ok env bp h, countEv]
    | some msg =>
      cases hm : hasSubstr notFullyMergedMarker msg
      · simp [processBranch_otherFail env bp msg h hm, countEv]
      · simp [processBranch_decline env bp msg h hm hans, countEv]
  · exact countEv_branch_other env false (Ev.deleteForce b) b bp rfl heq

/-! ### Claim C2 -/

/-- C2: when the dry-run flag is present the program never invokes a
mutating delete command — neither the non-forcing nor the forcing delete —
each selected branch instead gets the logged simulation message, and the
Repository Guard, Remote Sync, Branch Classifier and Selection Prompt steps
run exactly as in normal mode. -/
theorem c2_dry_run (env : Env) :
    (∀ b : Str,
        Ev.deleteSoft b ∉ (mainRun env true).1 ∧ Ev.deleteForce b ∉ (mainRun env true).1) ∧
      (mainRun env true).1.filter isPreludeEv = (mainRun env false).1.filter isPreludeEv ∧
      (env.inRepo = true → env.fetchOk = true → env.branchVVOk = true →
        goneBranches env.branchesOutput env.protectedBranches ≠ [] → env.selection ≠ [] →
        ∀ b ∈ env.selection, Ev.logWouldDelete b ∈ (mainRun env true).1) := by
  have hmap : processBranch env true = fun b => [Ev.logWouldDelete b] :=
    funext fun b => processBranch_dry env b
  refine ⟨?_, ?_, ?_⟩
  · intro b
    cases hr : env.inRepo
    · constructor <;> simp [mainRun, hr]
    · cases hf : env.fetchOk
      · constructor <;> simp [mainRun, hr, hf]
      · cases hv : env.branchVVOk
        · constructor <;> simp [mainRun, hr, hf, hv]
        · by_cases hg : goneBranches env.branchesOutput env.protectedBranches = []
          · constructor <;> simp [mainRun, hr, hf, hv, hg]
          · by_cases hs : env.selection = []
            · constructor <;> simp [mainRun, hr, hf, hv, hg, hs]
            · constructor <;>
                simp [mainRun, hr, hf, hv, hg, hs, hmap, List.mem_flatten, List.mem_map,
                  List.mem_append, List.mem_cons]
  · cases hr : env.inRepo
    · simp [mainRun, hr, isPreludeEv]
    · cases hf : env.fetchOk
      · simp [mainRun, hr, hf, isPreludeEv]
      · cases hv : env.branchVVOk
        · simp [mainRun, hr, hf, hv, isPreludeEv]
        · by_cases hg : goneBranches env.branchesOutput env.protectedBranches = []
          · simp [mainRun, hr, hf, hv, hg, isPreludeEv]
          · by_cases hs : env.selection = []
            · simp [mainRun, hr, hf, hv, hg, hs, isPreludeEv]
            · simp [mainRun, hr, hf, hv, hg, hs, List.filter_append,
                filter_prelude_flatten, isPreludeEv, map_filter_prelude, flatten_map_nil]
  · intro hr hf hv hg hs b hb
    have h3 := mainRun_full env true hr hf hv hg hs
    have h1 : [Ev.logWouldDelete b] ∈ env.selection.map (processBranch env true) := by
      rw [hmap]
      exact List.mem_map.mpr ⟨b, hb, rfl⟩
    have h2 : Ev.logWouldDelete b ∈ (env.selection.map (processBranch env true)).flatten :=
      List.mem_flatten.mpr ⟨_, h1, List.mem_singleton.mpr rfl⟩
    simp only [h3, List.mem_append]
    tauto

/-- C2 witness: a concrete dry run in which a selected branch gets the
simulation message (and, by the theorem, no delete command). -/
theorem c2_witness : Ev.logWouldDelete fxStr ∈ (mainRun envAllOk true).1 :=
  (c2_dry_run envAllOk).2.2 rfl rfl rfl (by decide) (by decide) fxStr (by decide)

/-! ### Claim C3 -/

/-- C3: for every branch of a duplicate-free Selection, in normal mode, the
force-delete confirmation prompt is presented exactly once for that branch
when its non-forcing delete fails with an error containing
"not fully merged", and is never presented for that branch otherwise. -/
theorem c3_force_prompt_once (env : Env) (b : Str)
    (hnd : env.selection.Nodup) (hb : b ∈ env.selection)
    (hr : env.inRepo = true) (hf : env.fetchOk = true) (hv : env.branchVVOk = true)
    (hg : goneBranches env.branchesOutput env.protectedBranches ≠ []) :
    countEv (Ev.confirmPrompt b) (mainRun env false).1 =
      if wouldForcePrompt env b = true then 1 else 0 := by
  have hs : env.selection ≠ [] := fun hh => by rw [hh] at hb; cases hb
  have h3 := mainRun_full env false hr hf hv hg hs
  have hflat : countEv (Ev.confirmPrompt b)
        ((env.selection.map (processBranch env false)).flatten)
      = countEv (Ev.confirmPrompt b) (processBranch env false b) :=
    countEv_flatten_map _ _ _ b
      (fun bp hbp => countEv_branch_other env false (Ev.confirmPrompt b) b bp rfl hbp) hnd hb
  simp [h3, countEv_append, countEv, hflat, countEv_confirm_self]

/-- C3 witness: a concrete run in which deleting feature-y fails with the
unmerged error, so the confirmation prompt for it appears exactly once. -/
theorem c3_witness :
    countEv (Ev.confirmPrompt fyStr) (mainRun envDecline false).1 = 1 := by
  have h := c3_force_prompt_once envDecline fyStr (by decide) (by decide) rfl rfl rfl (by decide)
  rw [h]
  decide

/-! ### Claim C4 -/

/-- C4: whatever the per-branch delete outcomes, no failure aborts the
batch: the run completes with exit code 0 and the sequence of per-branch
processing starts in the trace is exactly the Selection, in list order. -/
theorem c4_batch_isolation (env : Env) (d : Bool)
    (hr : env.inRepo = true) (hf : env.fetchOk = true) (hv : env.branchVVOk = true)
    (hg : goneBranches env.branchesOutput env.protectedBranches ≠ [])
    (hs : env.selection ≠ []) :
    (mainRun env d).1.filterMap attemptOf = env.selection ∧ (mainRun env d).2 = 0 := by
  have h3 := mainRun_full env d hr hf hv hg hs
  constructor
  · rw [h3]
    cases d <;>
      simp [List.filterMap_append, attemptOf, filterMap_attempt_flatten,
        map_filterMap_attempt, flatten_map_singleton]
  · rw [h3]

/-- C4 witness: a concrete run in which both selected deletes fail — one
with an unrelated error, one with the unmerged error followed by a failing
force delete — yet both branches are processed in order and the run exits
0. -/
theorem c4_witness :
    (mainRun envMixedFail false).1.filterMap attemptOf = [fxStr, fyStr] ∧
      (mainRun envMixedFail false).2 = 0 :=
  c4_batch_isolation envMixedFail false rfl rfl rfl (by decide) (by decide)

/-! ### Claim C5 -/

/-- C5: for a branch of a duplicate-free Selection whose non-forcing delete
fails with the unmerged error, if the user declines the force-delete
confirmation then the branch is reported skipped, no forcing delete is ever
invoked for it, the non-forcing delete was attempted exactly once (and git
refused it), and the branch is still present in a subsequent listing. -/
theorem c5_decline_skips (env : Env) (b msg : Str) (initial : List Str)
    (hnd : env.selection.Nodup) (hb : b ∈ env.selection)
    (hr : env.inRepo = true) (hf : env.fetchOk = true) (hv : env.branchVVOk = true)
    (hg : goneBranches env.branchesOutput env.protectedBranches ≠ [])
    (hdel : env.deleteResult b = some msg)
    (hmsg : hasSubstr notFullyMergedMarker msg = true)
    (hans : env.forceAnswer b = false)
    (hin : b ∈ initial) :
    Ev.logSkipped b ∈ (mainRun env false).1 ∧
      Ev.deleteForce b ∉ (mainRun env false).1 ∧
      countEv (Ev.deleteSoft b) (mainRun env false).1 = 1 ∧
      b ∈ listingAfter env (mainRun env false).1 initial := by
  have hs : env.selection ≠ [] := fun hh => by rw [hh] at hb; cases hb
  have h3 := mainRun_full env false hr hf hv hg hs
  have hshape := processBranch_decline env b msg hdel hmsg hans
  have hskip : Ev.logSkipped b ∈ (mainRun env false).1 := by
    have hl : processBranch env false b ∈ env.selection.map (processBranch env false) :=
      List.mem_map_of_mem _ hb
    have hm : Ev.logSkipped b ∈ (env.selection.map (processBranch env false)).flatten :=
      List.mem_flatten.mpr ⟨_, hl, by rw [hshape]; simp⟩
    simp only [h3, List.mem_append]
    tauto
  have hforcecnt : countEv (Ev.deleteForce b) (mainRun env false).1 = 0 := by
    have hz : countEv (Ev.deleteForce b)
        ((env.selection.map (processBranch env false)).flatten) = 0 :=
      countEv_flatten_zero _ _ (fun l hl => by
        obtain ⟨bp, hbp, rfl⟩ := List.mem_map.mp hl
        exact countEv_force_processBranch_zero env b bp hans)
    simp [h3, countEv_append, countEv, hz]
  have hnof : Ev.deleteForce b ∉ (mainRun env false).1 :=
    not_mem_of_countEv_zero _ _ hforcecnt
  have hsoft : countEv (Ev.deleteSoft b) (mainRun env false).1 = 1 := by
    have hflat : countEv (Ev.deleteSoft b)
          ((env.selection.map (processBranch env false)).flatten)
        = countEv (Ev.deleteSoft b) (processBranch env false b) :=
      countEv_flatten_map _ _ _ b
        (fun bp hbp => countEv_branch_other env false (Ev.deleteSoft b) b bp rfl hbp) hnd hb
    simp [h3, countEv_append, countEv, hflat, countEv_soft_self]
  have hlist : b ∈ listingAfter env (mainRun env false).1 initial := by
    apply List.mem_filter.mpr
    refine ⟨hin, ?_⟩
    have hd1 : decide (Ev.deleteForce b ∈ (mainRun env false).1) = false :=
      decide_eq_false hnof
    simp [branchDeletedIn, hdel, hd1]
  exact ⟨hskip, hnof, hsoft, hlist⟩

/-- C5 witness: the concrete declined run — feature-y is reported skipped,
never force deleted, its non-forcing delete was attempted once and refused,
and it survives into the subsequent listing. -/
theorem c5_witness :
    Ev.logSkipped fyStr ∈ (mainRun envDecline false).1 ∧
      Ev.deleteForce fyStr ∉ (mainRun envDecline false).1 ∧
      countEv (Ev.deleteSoft fyStr) (mainRun envDecline false).1 = 1 ∧
      fyStr ∈ listingAfter envDecline (mainRun envDecline false).1 [fxStr, fyStr] :=
  c5_decline_skips envDecline fyStr unmergedMsg [fxStr, fyStr] (by decide) (by decide)
    rfl rfl rfl (by decide) (by decide) (by decide) rfl (by decide)

/-! ### Claim C6 -/

/-- C6: when the Candidate List computed from the status output is empty,
the run reports the nothing-to-do success message, exits with status 0, and
never shows the interactive selection prompt. -/
theorem c6_empty_candidates (env : Env) (d : Bool)
    (hr : env.inRepo = true) (hf : env.fetchOk = true) (hv : env.branchVVOk = true)
    (hempty : goneBranches env.branchesOutput env.protectedBranches = []) :
    (mainRun env d).2 = 0 ∧ Ev.logNothingToDo ∈ (mainRun env d).1 ∧
      ∀ choices : List Str, Ev.selectPrompt choices ∉ (mainRun env d).1 := by
  cases d <;> simp [mainRun, hr, hf, hv, hempty]

/-- C6 witness: a concrete run whose only gone branch is protected exits 0
with the success message and no selection prompt. -/
theorem c6_witness :
    (mainRun envNothingToDo false).2 = 0 ∧
      Ev.logNothingToDo ∈ (mainRun envNothingToDo false).1 ∧
      ∀ choices : List Str, Ev.selectPrompt choices ∉ (mainRun envNothingToDo false).1 :=
  c6_empty_candidates envNothingToDo false rfl rfl rfl (by decide)

/-! ### Claim C7 -/

/-- C7: the exit code is 0 on every completed run (including nothing-to-do
and an empty Selection) and 1 on every aborting failure — but the claim's
final clause fails on the code: on the uncaught-exception path (here, git
branch -vv throwing) the process exits 1 with NO script diagnostic, because
the final catch handler calls process.exit(1) synchronously after starting
an asynchronous dynamic import, so its console.error never runs. -/
theorem c7_exit_codes_and_silent_catch :
    (∀ (env : Env) (d : Bool),
        (mainRun env d).2 = if env.inRepo && env.fetchOk && env.branchVVOk then 0 else 1) ∧
      (mainRun envNoListing false).2 = 1 ∧
      (mainRun envNoListing false).1.filter isDiagnosticEv = [] := by
  refine ⟨fun env d => ?_, rfl, rfl⟩
  cases hr : env.inRepo
  · simp [mainRun, hr]
  · cases hf : env.fetchOk
    · simp [mainRun, hr, hf]
    · cases hv : env.branchVVOk
      · simp [mainRun, hr, hf, hv]
      · by_cases hg : goneBranches env.branchesOutput env.protectedBranches = []
        · simp [mainRun, hr, hf, hv, hg]
        · by_cases hs : env.selection = [] <;> simp [mainRun, hr, hf, hv, hg, hs]

/-! ### Claim C1 -/

/-- C1 (counterexample): the claim as stated is false.  On the status text
consisting of the single line containing a tab after its first token and the
literal marker ": gone]", with an empty Protected Branch Set, the code
extracts the first space-delimited token of the trimmed line (which still
contains the tab), while the claim's first whitespace-delimited token stops
at the tab, so the two lists differ. -/
theorem c1_counterexample :
    goneBranches tabLineText [] ≠ classifierSpec tabLineText [] := by decide

/-- C1 (amended): for every status-output text and Protected Branch Set, the
Branch Classifier produces exactly the list obtained by splitting the text
into lines, keeping the lines that contain the literal substring ": gone]",
extracting from each kept line the first space-delimited token of the
whitespace-trimmed line, and removing every token that is a member of the
Protected Branch Set — with line order preserved and no duplicates introduced
or removed beyond this filter. -/
theorem c1_classifier_exact (text : Str) (protectedBranches : List Str) :
    goneBranches text protectedBranches = classifierSpecAmended text protectedBranches := by
  unfold goneBranches classifierSpecAmended
  rw [funext branchTok_eq_firstSpaceToken]

/-! ### Claim C8 -/

/-- C8: the configuration-resolution function returns the configuration
file's array-valued protected-branches field whenever the file exists and is
structurally valid, and returns the built-in default list in every other
case — file absent, field missing or not an array, or any read or parse
error — the error cases being non-fatal and exactly the ones logged with the
fallback warning. -/
theorem c8_config_resolution (cfg : ConfigState) :
    getProtectedBranches cfg = (protectedBranchesSpec cfg, isConfigError cfg) := by
  cases cfg with
  | parsedObj field => cases field <;> rfl
  | absent => rfl
  | readError => rfl
  | parseError => rfl
  | nullValue => rfl

/-! ### Claim C9 -/

/-- C9: for every status line that contains ": gone]" and whose trimmed form
begins with the character * followed by a space (the marker git prints for
the currently checked-out branch), the token extraction shared by both
implementations yields the one-character token * as the candidate branch
name rather than the branch's actual name; consequently that token lands in
the Candidate List whenever it is not protected. -/
theorem c9_star_token (text : Str) (protectedBranches : List Str) (line rest : Str)
    (hline : line ∈ splitOnChar '\n' text)
    (hinc : hasSubstr goneMarker line = true)
    (htrim : trim line = '*' :: ' ' :: rest) :
    branchTok line = ['*'] ∧
      (strListHas protectedBranches (['*'] : Str) = false →
        (['*'] : Str) ∈ goneBranches text protectedBranches) := by
  have htok : branchTok line = ['*'] := by
    rw [branchTok_eq_firstSpaceToken, firstSpaceToken, htrim,
      List.takeWhile_cons_of_pos (by decide), List.takeWhile_cons_of_neg (by decide)]
  refine ⟨htok, fun hprot => ?_⟩
  unfold goneBranches
  refine List.mem_filter.mpr ⟨?_, ?_⟩
  · exact List.mem_map.mpr ⟨line, List.mem_filter.mpr ⟨hline, hinc⟩, htok⟩
  · simp [hprot]

/-- C9 witness: on a concrete current-branch status line the classifier
yields the star token. -/
theorem c9_witness :
    branchTok starDemoLine = ['*'] ∧
      (['*'] : Str) ∈ goneBranches starDemoLine defaultProtectedCleanup := by
  have h := c9_star_token starDemoLine defaultProtectedCleanup starDemoLine
      (("feature-x abc [origin/feature-x: gone] msg").toList) (by decide) (by decide) (by decide)
  exact ⟨h.1, h.2 (by decide)⟩

/-! ### Claim C10 -/

/-- C10: with their respective built-in default Protected Branch Sets, the
two implementations' Branch Classifiers produce equal Candidate Lists for
every status-output text in which no gone-marked line has prod or production
as its first token; and on every text containing such a line the outputs
differ. -/
theorem c10_default_sets (text : Str) :
    ((∀ line ∈ splitOnChar '\n' text, hasSubstr goneMarker line = true →
        branchTok line ≠ prodStr ∧ branchTok line ≠ productionStr) →
      goneBranches text defaultProtectedClean = goneBranches text defaultProtectedCleanup) ∧
    ((∃ line ∈ splitOnChar '\n' text, hasSubstr goneMarker line = true ∧
        (branchTok line = prodStr ∨ branchTok line = productionStr)) →
      goneBranches text defaultProtectedClean ≠ goneBranches text defaultProtectedCleanup) := by
  constructor
  · intro h
    unfold goneBranches
    apply filter_ext_mem
    intro t ht
    obtain ⟨line, hline, rfl⟩ := List.mem_map.mp ht
    obtain ⟨hmem, hinc⟩ := List.mem_filter.mp hline
    obtain ⟨h1, h2⟩ := h line hmem hinc
    rw [cleanup_as_append, strListHas_append]
    have hno : strListHas [prodStr, productionStr] (branchTok line) = false := by
      cases hp : strListHas [prodStr, productionStr] (branchTok line)
      · rfl
      · exfalso
        have hmem2 := (strListHas_iff _ _).mp hp
        simp only [List.mem_cons, List.not_mem_nil, or_false] at hmem2
        rcases hmem2 with h | h
        · exact h1 h
        · exact h2 h
    rw [hno]
    simp
  · rintro ⟨line, hline, hinc, htok⟩ heq
    have htm : branchTok line ∈
        ((splitOnChar '\n' text).filter (fun l => hasSubstr goneMarker l)).map branchTok :=
      List.mem_map.mpr ⟨line, List.mem_filter.mpr ⟨hline, hinc⟩, rfl⟩
    have hclean : strListHas defaultProtectedClean (branchTok line) = false := by
      rcases htok with h | h <;> rw [h] <;> decide
    have h1 : branchTok line ∈ goneBranches text defaultProtectedClean := by
      unfold goneBranches
      exact List.mem_filter.mpr ⟨htm, by simp [hclean]⟩
    rw [heq] at h1
    unfold goneBranches at h1
    have h2 := (List.mem_filter.mp h1).2
    have hcu : strListHas defaultProtectedCleanup (branchTok line) = true := by
      rcases htok with h | h <;> rw [h] <;> decide
    simp [hcu] at h2

/-- C10 witness: on a concrete prod-free text the two classifiers agree, and
on a concrete text with a gone-marked prod line they differ. -/
theorem c10_witness :
    (goneBranches noProdText defaultProtectedClean
        = goneBranches noProdText defaultProtectedCleanup) ∧
      goneBranches prodText defaultProtectedClean
        ≠ goneBranches prodText defaultProtectedCleanup := by
  constructor
  · exact (c10_default_sets noProdText).1 (by decide)
  · exact (c10_default_sets prodText).2
      ⟨("prod abc [origin/prod: gone] msg").toList, by decide, by decide, Or.inl (by decide)⟩

end GitClean
